import Mathlib

/-!
Shallow embedding of the solar-system renderer core (src/main.cpp):
the transform composer `planetCreator`, the procedural mesh generators
`renderSphere` and `renderOrbit`, the per-frame scene walk of `main`,
the lazy zero-sentinel mesh caches, and the camera-mode input handler
`processInput`.

Machine floats are modelled as exact reals.  The exact float equality
test on angles in `renderOrbit` is modelled by exact rational angle
arithmetic.  The glm matrix operations (`glm::translate`, `glm::rotate`,
`glm::scale`) are embedded entrywise following their column-major
definitions; a glm column `m[c]` corresponds to the column function
`fun r => M r c` of the mathematical matrix `M`.  The GLFW clock
(`glfwGetTime`) is modelled as a stream of readings `ℕ → ℝ` with an
explicit read cursor, because `planetCreator` reads the live clock on
each rotation rather than taking a time argument.
-/

namespace SolarSystem

abbrev Vec3 := ℝ × ℝ × ℝ

abbrev Mat4 := Matrix (Fin 4) (Fin 4) ℝ

/-- Embedding of `glm::translate(m, v)`: columns 0..2 of `m` are kept and column 3
becomes `m[0]*v.x + m[1]*v.y + m[2]*v.z + m[3]`. -/
def glmTranslate (m : Mat4) (v : Vec3) : Mat4 :=
  Matrix.of fun i j =>
    if j = 3 then m i 0 * v.1 + m i 1 * v.2.1 + m i 2 * v.2.2 + m i 3 else m i j

/-- The 3×3 `Rotate` matrix built by `glm::rotate(m, angle, v)` (with the
axis normalized), extended to 4×4 with a unit last row and column.  glm
stores `Rotate[c][r]`; entry `(r, c)` here is glm's `Rotate[c][r]`. -/
noncomputable def glmRotationMat (angle : ℝ) (v : Vec3) : Mat4 :=
  let c := Real.cos angle
  let s := Real.sin angle
  let len := Real.sqrt (v.1 * v.1 + v.2.1 * v.2.1 + v.2.2 * v.2.2)
  let a1 := v.1 / len
  let a2 := v.2.1 / len
  let a3 := v.2.2 / len
  let t1 := (1 - c) * a1
  let t2 := (1 - c) * a2
  let t3 := (1 - c) * a3
  Matrix.of
    ![![c + t1 * a1, t2 * a1 - s * a3, t3 * a1 + s * a2, 0],
      ![t1 * a2 + s * a3, c + t2 * a2, t3 * a2 - s * a1, 0],
      ![t1 * a3 - s * a2, t2 * a3 + s * a1, c + t3 * a3, 0],
      ![0, 0, 0, 1]]

/-- Embedding of `glm::rotate(m, angle, v)`: result column `j < 3` is
`m[0]*Rotate[j][0] + m[1]*Rotate[j][1] + m[2]*Rotate[j][2]`, column 3 is
kept. -/
noncomputable def glmRotate (m : Mat4) (angle : ℝ) (v : Vec3) : Mat4 :=
  Matrix.of fun i j =>
    if j = 3 then m i 3
    else
      m i 0 * glmRotationMat angle v 0 j + m i 1 * glmRotationMat angle v 1 j +
        m i 2 * glmRotationMat angle v 2 j

/-- Embedding of `glm::scale(m, v)`: column `j < 3` is `m[j] * v[j]`, column 3 kept. -/
def glmScale (m : Mat4) (v : Vec3) : Mat4 :=
  Matrix.of fun i j =>
    if j = 0 then m i 0 * v.1
    else if j = 1 then m i 1 * v.2.1
    else if j = 2 then m i 2 * v.2.2
    else m i 3

/-- Homogeneous translation matrix. -/
def translateMat (v : Vec3) : Mat4 :=
  Matrix.of
    ![![1, 0, 0, v.1], ![0, 1, 0, v.2.1], ![0, 0, 1, v.2.2], ![0, 0, 0, 1]]

/-- Homogeneous rotation about the y (up) axis. -/
noncomputable def rotateYMat (θ : ℝ) : Mat4 :=
  Matrix.of
    ![![Real.cos θ, 0, Real.sin θ, 0], ![0, 1, 0, 0],
      ![-Real.sin θ, 0, Real.cos θ, 0], ![0, 0, 0, 1]]

/-- Homogeneous scale matrix. -/
def scaleMat (v : Vec3) : Mat4 :=
  Matrix.of
    ![![v.1, 0, 0, 0], ![0, v.2.1, 0, 0], ![0, 0, v.2.2, 0], ![0, 0, 0, 1]]

/-- Embedding of `planetCreator` from main.cpp.  The source calls `glfwGetTime()`
twice, once for the revolution rotation and once for the spin rotation,
so it takes the clock stream and the current read cursor and returns the
model matrix together with the advanced cursor. -/
noncomputable def planetCreatorClocked (clock : ℕ → ℝ) (k : ℕ)
    (translation distance rotation scale : ℝ) (centerModel : Vec3) : Mat4 × ℕ :=
  let m0 := glmTranslate 1 centerModel
  let m1 := glmRotate m0 (clock k * translation) (0, 1, 0)
  let m2 := glmTranslate m1 (0, 0, distance)
  let m3 := glmRotate m2 (clock (k + 1) * rotation) (0, 1, 0)
  (glmScale m3 (scale, scale, scale), k + 2)

/-- The transform composer evaluated at a single instant: `planetCreator`
run under a clock whose every reading is `time`. -/
noncomputable def planetCreatorAt (translation distance rotation scale : ℝ)
    (centerModel : Vec3) (time : ℝ) : Mat4 :=
  (planetCreatorClocked (fun _ => time) 0 translation distance rotation scale centerModel).1

/-- First three components of the fourth (translation) column, as taken
by `glm::vec3(model[3])` at the call sites. -/
def transCol (M : Mat4) : Vec3 := (M 0 3, M 1 3, M 2 3)

theorem glmTranslate_eq_mul (m : Mat4) (v : Vec3) :
    glmTranslate m v = m * translateMat v := by
  ext i j
  fin_cases j <;>
    simp [glmTranslate, translateMat, Matrix.mul_apply, Fin.sum_univ_four,
      Matrix.cons_val_zero, Matrix.cons_val_one, Matrix.head_cons,
      Matrix.cons_val_two, Matrix.cons_val_three, Matrix.vecTail, Matrix.vecHead]

theorem glmScale_eq_mul (m : Mat4) (v : Vec3) :
    glmScale m v = m * scaleMat v := by
  ext i j
  fin_cases j <;>
    simp [glmScale, scaleMat, Matrix.mul_apply, Fin.sum_univ_four,
      Matrix.cons_val_zero, Matrix.cons_val_one, Matrix.head_cons,
      Matrix.cons_val_two, Matrix.cons_val_three, Matrix.vecTail, Matrix.vecHead]

theorem glmRotationMat_yAxis (θ : ℝ) : glmRotationMat θ (0, 1, 0) = rotateYMat θ := by
  ext i j
  fin_cases i <;> fin_cases j <;>
    simp [glmRotationMat, rotateYMat, Real.sqrt_one,
      Matrix.cons_val_zero, Matrix.cons_val_one, Matrix.head_cons,
      Matrix.cons_val_two, Matrix.cons_val_three, Matrix.vecTail, Matrix.vecHead]

theorem glmRotate_eq_mul (m : Mat4) (angle : ℝ) (v : Vec3) :
    glmRotate m angle v = m * glmRotationMat angle v := by
  have hcol3 : ∀ i : Fin 4, glmRotationMat angle v i 3 = if i = 3 then 1 else 0 := by
    intro i
    fin_cases i <;>
      simp [glmRotationMat, Matrix.cons_val_zero, Matrix.cons_val_one, Matrix.head_cons,
        Matrix.cons_val_two, Matrix.cons_val_three, Matrix.vecTail, Matrix.vecHead]
  have hrow3 : ∀ j : Fin 4, glmRotationMat angle v 3 j = if j = 3 then 1 else 0 := by
    intro j
    fin_cases j <;>
      simp [glmRotationMat, Matrix.cons_val_zero, Matrix.cons_val_one, Matrix.head_cons,
        Matrix.cons_val_two, Matrix.cons_val_three, Matrix.vecTail, Matrix.vecHead]
  ext i j
  by_cases h3 : j = 3
  · subst h3
    simp [glmRotate, Matrix.mul_apply, Fin.sum_univ_four, hcol3]
  · have : (m * glmRotationMat angle v) i j =
        m i 0 * glmRotationMat angle v 0 j + m i 1 * glmRotationMat angle v 1 j +
          m i 2 * glmRotationMat angle v 2 j + m i 3 * glmRotationMat angle v 3 j := by
      simp [Matrix.mul_apply, Fin.sum_univ_four]
    rw [this, hrow3 j, if_neg h3]
    simp [glmRotate, h3]

theorem planetCreatorClocked_fst (clock : ℕ → ℝ) (k : ℕ)
    (translation distance rotation scale : ℝ) (centerModel : Vec3) :
    (planetCreatorClocked clock k translation distance rotation scale centerModel).1 =
      translateMat centerModel * rotateYMat (clock k * translation) *
        translateMat (0, 0, distance) * rotateYMat (clock (k + 1) * rotation) *
        scaleMat (scale, scale, scale) := by
  simp only [planetCreatorClocked, glmTranslate_eq_mul, glmRotate_eq_mul,
    glmScale_eq_mul, glmRotationMat_yAxis, one_mul]

theorem planetCreatorClocked_snd (clock : ℕ → ℝ) (k : ℕ)
    (translation distance rotation scale : ℝ) (centerModel : Vec3) :
    (planetCreatorClocked clock k translation distance rotation scale centerModel).2 = k + 2 :=
  rfl

theorem planetCreatorAt_eq_prod (translation distance rotation scale : ℝ)
    (centerModel : Vec3) (time : ℝ) :
    planetCreatorAt translation distance rotation scale centerModel time =
      translateMat centerModel * rotateYMat (time * translation) *
        translateMat (0, 0, distance) * rotateYMat (time * rotation) *
        scaleMat (scale, scale, scale) := by
  unfold planetCreatorAt
  rw [planetCreatorClocked_fst]

theorem translate_mul_rotateY (a : Vec3) (α : ℝ) :
    translateMat a * rotateYMat α =
      Matrix.of
        ![![Real.cos α, 0, Real.sin α, a.1], ![0, 1, 0, a.2.1],
          ![-Real.sin α, 0, Real.cos α, a.2.2], ![0, 0, 0, 1]] := by
  ext i j
  fin_cases i <;> fin_cases j <;>
    simp [translateMat, rotateYMat, Matrix.mul_apply, Fin.sum_univ_four,
      Matrix.cons_val_zero, Matrix.cons_val_one, Matrix.head_cons,
      Matrix.cons_val_two, Matrix.cons_val_three, Matrix.vecTail, Matrix.vecHead]

theorem translate_rotateY_translate (a : Vec3) (α d : ℝ) :
    translateMat a * rotateYMat α * translateMat (0, 0, d) =
      Matrix.of
        ![![Real.cos α, 0, Real.sin α, a.1 + d * Real.sin α], ![0, 1, 0, a.2.1],
          ![-Real.sin α, 0, Real.cos α, a.2.2 + d * Real.cos α], ![0, 0, 0, 1]] := by
  rw [translate_mul_rotateY]
  ext i j
  fin_cases i <;> fin_cases j <;>
    simp [translateMat, Matrix.mul_apply, Fin.sum_univ_four,
      Matrix.cons_val_zero, Matrix.cons_val_one, Matrix.head_cons,
      Matrix.cons_val_two, Matrix.cons_val_three, Matrix.vecTail, Matrix.vecHead] <;>
    ring

theorem translate_rotateY_translate_rotateY (a : Vec3) (α d β : ℝ) :
    translateMat a * rotateYMat α * translateMat (0, 0, d) * rotateYMat β =
      Matrix.of
        ![![Real.cos α * Real.cos β - Real.sin α * Real.sin β, 0,
            Real.cos α * Real.sin β + Real.sin α * Real.cos β,
            a.1 + d * Real.sin α],
          ![0, 1, 0, a.2.1],
          ![-(Real.sin α) * Real.cos β - Real.cos α * Real.sin β, 0,
            Real.cos α * Real.cos β - Real.sin α * Real.sin β,
            a.2.2 + d * Real.cos α],
          ![0, 0, 0, 1]] := by
  rw [translate_rotateY_translate]
  ext i j
  fin_cases i <;> fin_cases j <;>
    simp [rotateYMat, Matrix.mul_apply, Fin.sum_univ_four,
      Matrix.cons_val_zero, Matrix.cons_val_one, Matrix.head_cons,
      Matrix.cons_val_two, Matrix.cons_val_three, Matrix.vecTail, Matrix.vecHead] <;>
    ring

theorem planetCreatorClocked_matrix (clock : ℕ → ℝ) (k : ℕ)
    (tr d rot sc : ℝ) (a : Vec3) :
    (planetCreatorClocked clock k tr d rot sc a).1 =
      Matrix.of
        ![![(Real.cos (clock k * tr) * Real.cos (clock (k + 1) * rot) -
              Real.sin (clock k * tr) * Real.sin (clock (k + 1) * rot)) * sc, 0,
            (Real.cos (clock k * tr) * Real.sin (clock (k + 1) * rot) +
              Real.sin (clock k * tr) * Real.cos (clock (k + 1) * rot)) * sc,
            a.1 + d * Real.sin (clock k * tr)],
          ![0, sc, 0, a.2.1],
          ![(-(Real.sin (clock k * tr)) * Real.cos (clock (k + 1) * rot) -
              Real.cos (clock k * tr) * Real.sin (clock (k + 1) * rot)) * sc, 0,
            (Real.cos (clock k * tr) * Real.cos (clock (k + 1) * rot) -
              Real.sin (clock k * tr) * Real.sin (clock (k + 1) * rot)) * sc,
            a.2.2 + d * Real.cos (clock k * tr)],
          ![0, 0, 0, 1]] := by
  rw [planetCreatorClocked_fst, translate_rotateY_translate_rotateY]
  ext i j
  fin_cases i <;> fin_cases j <;>
    simp [scaleMat, Matrix.mul_apply, Fin.sum_univ_four,
      Matrix.cons_val_zero, Matrix.cons_val_one, Matrix.head_cons,
      Matrix.cons_val_two, Matrix.cons_val_three, Matrix.vecTail, Matrix.vecHead]

/-- C1: for every revolution speed r, orbital distance d, spin speed s,
scale k, anchor a and time t, the model matrix produced by the transform
composer equals Translate(a) * RotateY(t*r) * Translate(0,0,d) *
RotateY(t*s) * Scale(k,k,k) applied to the identity: each of the five
steps post-multiplies in exactly that order. -/
theorem composer_is_ordered_product (r d s k : ℝ) (a : Vec3) (t : ℝ) :
    planetCreatorAt r d s k a t =
      1 * translateMat a * rotateYMat (t * r) * translateMat (0, 0, d) *
        rotateYMat (t * s) * scaleMat (k, k, k) := by
  rw [planetCreatorAt_eq_prod, one_mul]

/-- C7: with revolutionSpeed 1, orbitalDistance 5, spinSpeed 0, scale 1
and anchor (0,0,0), the translation column of the composer's output at
time π equals (0, 0, -5): a half orbit. -/
theorem half_orbit_translation_column :
    transCol (planetCreatorAt 1 5 0 1 (0, 0, 0) Real.pi) = (0, 0, -5) := by
  unfold planetCreatorAt
  rw [planetCreatorClocked_matrix]
  simp [transCol, Matrix.cons_val_zero, Matrix.cons_val_one, Matrix.head_cons,
    Matrix.cons_val_two, Matrix.cons_val_three, Matrix.vecTail, Matrix.vecHead,
    Real.sin_pi, Real.cos_pi]

/-- A concrete clock whose readings change after the second read: the
first two readings are 0, every later one is π. -/
noncomputable def cexClock : ℕ → ℝ := fun n => if n ≤ 1 then 0 else Real.pi

/-- C4 (counterexample): `planetCreator` is not a pure function of
(revolutionSpeed, orbitalDistance, spinSpeed, scale, anchor): it reads
the live GLFW clock internally, so two evaluations with identical
arguments but performed at different points of the clock stream yield
different matrices (here with revolutionSpeed 0, distance 0, spinSpeed 1,
scale 1, anchor (0,0,0): the first evaluation sees spin time 0, the
second sees spin time π). -/
theorem composer_clock_reads_cex :
    (planetCreatorClocked cexClock 0 0 0 1 1 (0, 0, 0)).1 ≠
      (planetCreatorClocked cexClock 2 0 0 1 1 (0, 0, 0)).1 := by
  have h1 : (planetCreatorClocked cexClock 0 0 0 1 1 (0, 0, 0)).1 0 0 = 1 := by
    rw [planetCreatorClocked_matrix]
    norm_num [cexClock, Matrix.cons_val_zero]
  have h2 : (planetCreatorClocked cexClock 2 0 0 1 1 (0, 0, 0)).1 0 0 = -1 := by
    rw [planetCreatorClocked_matrix]
    norm_num [cexClock, Matrix.cons_val_zero, Real.cos_pi]
  intro h
  have h00 : (planetCreatorClocked cexClock 0 0 0 1 1 (0, 0, 0)).1 0 0 =
      (planetCreatorClocked cexClock 2 0 0 1 1 (0, 0, 0)).1 0 0 := by rw [h]
  rw [h1, h2] at h00
  norm_num at h00

/-- C4 (amended): `planetCreator` reads the shared clock exactly twice
per invocation (once for the revolution angle, once for the spin angle),
advancing the read cursor by two; whenever its two consecutive clock
reads return the same value t — in particular under a clock that is
frozen for the duration of the frame — the produced matrix equals the
pure single-instant composition at t, so two such evaluations with
identical inputs yield identical matrices. -/
theorem composer_pure_given_equal_reads (clock : ℕ → ℝ) (k : ℕ)
    (translation distance rotation scale : ℝ) (centerModel : Vec3)
    (h : clock k = clock (k + 1)) :
    (planetCreatorClocked clock k translation distance rotation scale centerModel).1 =
      planetCreatorAt translation distance rotation scale centerModel (clock k) ∧
    (planetCreatorClocked clock k translation distance rotation scale centerModel).2 =
      k + 2 := by
  refine ⟨?_, rfl⟩
  rw [planetCreatorClocked_fst, planetCreatorAt_eq_prod, ← h]

theorem composer_pure_given_equal_reads_witness :
    (fun _ : ℕ => (0 : ℝ)) 0 = (fun _ : ℕ => (0 : ℝ)) (0 + 1) ∧
    ((planetCreatorClocked (fun _ : ℕ => (0 : ℝ)) 0 1 5 0 1 (0, 0, 0)).1 =
        planetCreatorAt 1 5 0 1 (0, 0, 0) ((fun _ : ℕ => (0 : ℝ)) 0) ∧
      (planetCreatorClocked (fun _ : ℕ => (0 : ℝ)) 0 1 5 0 1 (0, 0, 0)).2 = 0 + 2) :=
  ⟨rfl, composer_pure_given_equal_reads (fun _ => 0) 0 1 5 0 1 (0, 0, 0) rfl⟩

/-- Vertex position of the unit UV sphere at grid point (x, y) of the
`renderSphere` double loop (radius 1), from the spherical parametric
equations of the source. -/
noncomputable def spherePos (STEP x y : ℕ) : Vec3 :=
  let radius : ℝ := 1
  let xSegment : ℝ := (x : ℝ) / (STEP : ℝ)
  let ySegment : ℝ := (y : ℝ) / (STEP : ℝ)
  (radius * Real.sin (ySegment * Real.pi) * Real.cos (xSegment * 2 * Real.pi),
    radius * Real.sin (ySegment * Real.pi) * Real.sin (xSegment * 2 * Real.pi),
    radius * Real.cos (ySegment * Real.pi))

/-- The nested sweep of `renderSphere`: outer loop over x, inner over y,
both from 0 to STEP inclusive. -/
def sphereGrid (STEP : ℕ) : List (ℕ × ℕ) :=
  (List.range (STEP + 1)).flatMap fun x => (List.range (STEP + 1)).map fun y => (x, y)

/-- The vertex position stream of `renderSphere`. -/
noncomputable def spherePositions (STEP : ℕ) : List Vec3 :=
  (sphereGrid STEP).map fun p => spherePos STEP p.1 p.2

/-- Index stream contributed by row y of the sphere: even rows run left
to right, odd rows right to left, each sample contributing one index
from row y and one from row y+1 (boustrophedon triangle strip). -/
def sphereRowIndices (STEP y : ℕ) : List ℕ :=
  if y % 2 = 0 then
    (List.range (STEP + 1)).flatMap fun x =>
      [y * (STEP + 1) + x, (y + 1) * (STEP + 1) + x]
  else
    ((List.range (STEP + 1)).reverse).flatMap fun x =>
      [(y + 1) * (STEP + 1) + x, y * (STEP + 1) + x]

/-- The full triangle-strip index stream generated by `renderSphere`. -/
def sphereIndices (STEP : ℕ) : List ℕ :=
  (List.range STEP).flatMap fun y => sphereRowIndices STEP y

theorem sum_map_constant (n c : ℕ) : ((List.range n).map (fun _ => c)).sum = n * c := by
  induction n with
  | zero => simp
  | succ m ih =>
    rw [List.range_succ, List.map_append, List.sum_append, ih]
    simp
    ring

theorem sphereGrid_length (STEP : ℕ) :
    (sphereGrid STEP).length = (STEP + 1) * (STEP + 1) := by
  rw [sphereGrid, List.length_flatMap]
  simp only [Function.comp_def, List.length_map, List.length_range]
  rw [sum_map_constant]

theorem sphereRowIndices_length (STEP y : ℕ) :
    (sphereRowIndices STEP y).length = 2 * (STEP + 1) := by
  by_cases hy : y % 2 = 0
  · rw [sphereRowIndices, if_pos hy, List.length_flatMap]
    simp only [Function.comp_def, List.length_cons, List.length_nil]
    rw [sum_map_constant]
    omega
  · rw [sphereRowIndices, if_neg hy, List.length_flatMap, List.map_reverse, List.sum_reverse]
    simp only [Function.comp_def, List.length_cons, List.length_nil]
    rw [sum_map_constant]
    omega

theorem sphereIndices_length (STEP : ℕ) :
    (sphereIndices STEP).length = 2 * STEP * (STEP + 1) := by
  rw [sphereIndices, List.length_flatMap]
  simp only [Function.comp_def, sphereRowIndices_length]
  rw [sum_map_constant]
  ring

theorem spherePos_norm (STEP x y : ℕ) :
    Real.sqrt ((spherePos STEP x y).1 ^ 2 + (spherePos STEP x y).2.1 ^ 2 +
      (spherePos STEP x y).2.2 ^ 2) = 1 := by
  have h1 := Real.sin_sq_add_cos_sq ((y : ℝ) / (STEP : ℝ) * Real.pi)
  have h2 := Real.sin_sq_add_cos_sq ((x : ℝ) / (STEP : ℝ) * 2 * Real.pi)
  have hsum : (spherePos STEP x y).1 ^ 2 + (spherePos STEP x y).2.1 ^ 2 +
      (spherePos STEP x y).2.2 ^ 2 = 1 := by
    simp only [spherePos]
    linear_combination (Real.sin ((y : ℝ) / (STEP : ℝ) * Real.pi)) ^ 2 * h2 + h1
  rw [hsum, Real.sqrt_one]

/-- C2: for every STEP ≥ 1 the sphere generator produces exactly
(STEP+1)^2 vertices and exactly 2·STEP·(STEP+1) indices, and every
generated vertex position has Euclidean magnitude equal to the radius
(radius 1), exactly over exact reals. -/
theorem sphere_generator_counts_and_magnitude (STEP : ℕ) (_hSTEP : 1 ≤ STEP) :
    (spherePositions STEP).length = (STEP + 1) ^ 2 ∧
    (sphereIndices STEP).length = 2 * STEP * (STEP + 1) ∧
    (spherePositions STEP).Forall
      (fun p => Real.sqrt (p.1 ^ 2 + p.2.1 ^ 2 + p.2.2 ^ 2) = 1) := by
  refine ⟨?_, sphereIndices_length STEP, ?_⟩
  · rw [spherePositions, List.length_map, sphereGrid_length, sq]
  · rw [List.forall_iff_forall_mem]
    intro p hp
    rw [spherePositions, List.mem_map] at hp
    obtain ⟨q, _, rfl⟩ := hp
    exact spherePos_norm STEP q.1 q.2

theorem sphere_generator_counts_and_magnitude_witness :
    1 ≤ 1 ∧
    ((spherePositions 1).length = (1 + 1) ^ 2 ∧
      (sphereIndices 1).length = 2 * 1 * (1 + 1) ∧
      (spherePositions 1).Forall
        (fun p => Real.sqrt (p.1 ^ 2 + p.2.1 ^ 2 + p.2.2 ^ 2) = 1)) :=
  ⟨le_refl 1, sphere_generator_counts_and_magnitude 1 (le_refl 1)⟩

/-- C9: every index emitted by the sphere index generator is strictly
less than the number of generated vertices (STEP+1)^2, so indexed vertex
lookup never goes out of bounds. -/
theorem sphere_indices_in_bounds (STEP : ℕ) (_hSTEP : 1 ≤ STEP) :
    (sphereIndices STEP).Forall (fun i => i < (STEP + 1) ^ 2) := by
  rw [List.forall_iff_forall_mem]
  intro i hi
  rw [sphereIndices] at hi
  obtain ⟨y, hy, hrow⟩ := List.mem_flatMap.1 hi
  rw [List.mem_range] at hy
  rw [sphereRowIndices] at hrow
  have hmain : ∀ x : ℕ, x < STEP + 1 →
      (i = y * (STEP + 1) + x ∨ i = (y + 1) * (STEP + 1) + x) → i < (STEP + 1) ^ 2 := by
    intro x hx hcases
    have hy1 : y + 1 ≤ STEP := hy
    rcases hcases with hE | hE <;> subst hE <;> nlinarith
  by_cases hpar : y % 2 = 0
  · rw [if_pos hpar] at hrow
    obtain ⟨x, hx, hmem⟩ := List.mem_flatMap.1 hrow
    rw [List.mem_range] at hx
    simp only [List.mem_cons, List.not_mem_nil, or_false] at hmem
    exact hmain x hx hmem
  · rw [if_neg hpar] at hrow
    obtain ⟨x, hx, hmem⟩ := List.mem_flatMap.1 hrow
    rw [List.mem_reverse, List.mem_range] at hx
    simp only [List.mem_cons, List.not_mem_nil, or_false] at hmem
    exact hmain x hx hmem.symm

theorem sphere_indices_in_bounds_witness :
    1 ≤ 1 ∧ (sphereIndices 1).Forall (fun i => i < (1 + 1) ^ 2) :=
  ⟨le_refl 1, sphere_indices_in_bounds 1 (le_refl 1)⟩

/-- Sample angle, in degrees, of ring vertex i in `renderOrbit`:
`(360.0f / STEP) * i`, modelled exactly over the rationals so that the
exact float equality test of the correction branch becomes exact
rational equality. -/
def ringAngleDeg (STEP i : ℕ) : ℚ := 360 / (STEP : ℚ) * (i : ℚ)

/-- Ring vertex i of `renderOrbit`: a point of the circle of the given
radius in the XZ plane (y = 0), with the correction branch of the source
zeroing x when the angle is exactly 90° or 270°, and otherwise zeroing z
when the angle is exactly 0° or 180°. -/
noncomputable def ringVertex (STEP : ℕ) (radius : ℝ) (i : ℕ) : Vec3 :=
  let currentAngle : ℚ := ringAngleDeg STEP i
  let rad : ℝ := (currentAngle : ℝ) * Real.pi / 180
  let x0 : ℝ := radius * Real.cos rad
  let z0 : ℝ := radius * Real.sin rad
  if currentAngle = 90 ∨ currentAngle = 270 then (0, 0, z0)
  else if currentAngle = 0 ∨ currentAngle = 180 then (x0, 0, 0)
  else (x0, 0, z0)

/-- The vertex list generated by `renderOrbit`: i from 0 to STEP-1. -/
noncomputable def ringVertices (STEP : ℕ) (radius : ℝ) : List Vec3 :=
  (List.range STEP).map fun i => ringVertex STEP radius i

theorem ringVertex_y (STEP : ℕ) (radius : ℝ) (i : ℕ) :
    (ringVertex STEP radius i).2.1 = 0 := by
  simp only [ringVertex]
  split_ifs <;> rfl

theorem ringVertex_x_zero (STEP : ℕ) (radius : ℝ) (i : ℕ)
    (h : ringAngleDeg STEP i = 90 ∨ ringAngleDeg STEP i = 270) :
    (ringVertex STEP radius i).1 = 0 := by
  simp only [ringVertex]
  rw [if_pos h]

theorem ringVertex_z_zero (STEP : ℕ) (radius : ℝ) (i : ℕ)
    (hn : ¬(ringAngleDeg STEP i = 90 ∨ ringAngleDeg STEP i = 270))
    (h : ringAngleDeg STEP i = 0 ∨ ringAngleDeg STEP i = 180) :
    (ringVertex STEP radius i).2.2 = 0 := by
  simp only [ringVertex]
  rw [if_neg hn, if_pos h]

/-- C3 (counterexample): for STEP = 3 and radius 1 the three samples sit
at 0°, 120° and 240°; the sample nearest 90° (and also nearest 270°) is
sample 1 at 120°, whose x coordinate is cos(120°) = -1/2, not 0 — the
correction branch only fires when the sample angle is exactly 90° or
270°, which requires STEP to be divisible by 4. -/
theorem ring_nearest90_not_zero_cex :
    ((ringVertices 3 1)[1]?).map (fun p => p.1) = some (-(1 / 2 : ℝ)) ∧
      (-(1 / 2 : ℝ)) ≠ (0 : ℝ) := by
  constructor
  · have h1 : (ringVertices 3 1)[1]? = some (ringVertex 3 1 1) := by
      rw [ringVertices, List.getElem?_map, List.getElem?_range (by norm_num), Option.map_some']
    rw [h1, Option.map_some']
    have hang : ringAngleDeg 3 1 = 120 := by
      rw [ringAngleDeg]
      norm_num
    have h2 : (ringVertex 3 1 1).1 = -(1 / 2 : ℝ) := by
      simp only [ringVertex, hang]
      norm_num
      have harg : (120 : ℝ) * Real.pi / 180 = Real.pi - Real.pi / 3 := by ring
      rw [harg, Real.cos_pi_sub, Real.cos_pi_div_three]
    rw [h2]
  · norm_num

/-- C3 (amended): for every STEP ≥ 3 that is divisible by 4 and every
radius, the ring generator produces exactly STEP vertices, every vertex
has y = 0, the x coordinate is exactly 0 at the two samples i = STEP/4
and i = 3·STEP/4 (the samples at exactly 90° and 270°, which are the
ones nearest those angles), and the z coordinate is exactly 0 at the two
samples i = 0 and i = STEP/2 (the samples at exactly 0° and 180°). -/
theorem ring_generator_flat_and_zeroed (STEP : ℕ) (radius : ℝ)
    (h3 : 3 ≤ STEP) (h4 : 4 ∣ STEP) :
    (ringVertices STEP radius).length = STEP ∧
    (ringVertices STEP radius).Forall (fun p => p.2.1 = 0) ∧
    ((ringVertices STEP radius)[STEP / 4]?).map (fun p => p.1) = some 0 ∧
    ((ringVertices STEP radius)[3 * STEP / 4]?).map (fun p => p.1) = some 0 ∧
    ((ringVertices STEP radius)[0]?).map (fun p => p.2.2) = some 0 ∧
    ((ringVertices STEP radius)[STEP / 2]?).map (fun p => p.2.2) = some 0 := by
  obtain ⟨m, rfl⟩ := h4
  have hm : 1 ≤ m := by omega
  have hmQ : (m : ℚ) ≠ 0 := Nat.cast_ne_zero.2 (by omega)
  have hcast : ((4 * m : ℕ) : ℚ) = 4 * (m : ℚ) := by push_cast; ring
  have hget : ∀ i : ℕ, i < 4 * m →
      (ringVertices (4 * m) radius)[i]? = some (ringVertex (4 * m) radius i) := by
    intro i hi
    rw [ringVertices, List.getElem?_map, List.getElem?_range hi, Option.map_some']
  refine ⟨?_, ?_, ?_, ?_, ?_, ?_⟩
  · rw [ringVertices, List.length_map, List.length_range]
  · rw [List.forall_iff_forall_mem]
    intro p hp
    rw [ringVertices, List.mem_map] at hp
    obtain ⟨i, _, rfl⟩ := hp
    exact ringVertex_y (4 * m) radius i
  · have hidx : 4 * m / 4 = m := by omega
    rw [hidx, hget m (by omega), Option.map_some']
    have hang : ringAngleDeg (4 * m) m = 90 := by
      rw [ringAngleDeg, hcast]
      field_simp
      ring
    rw [ringVertex_x_zero (4 * m) radius m (Or.inl hang)]
  · have hidx : 3 * (4 * m) / 4 = 3 * m := by omega
    rw [hidx, hget (3 * m) (by omega), Option.map_some']
    have hang : ringAngleDeg (4 * m) (3 * m) = 270 := by
      rw [ringAngleDeg, hcast]
      push_cast
      field_simp
      ring
    rw [ringVertex_x_zero (4 * m) radius (3 * m) (Or.inr hang)]
  · rw [hget 0 (by omega), Option.map_some']
    have hang : ringAngleDeg (4 * m) 0 = 0 := by
      rw [ringAngleDeg]
      norm_num
    rw [ringVertex_z_zero (4 * m) radius 0 (by rw [hang]; norm_num) (Or.inl hang)]
  · have hidx : 4 * m / 2 = 2 * m := by omega
    rw [hidx, hget (2 * m) (by omega), Option.map_some']
    have hang : ringAngleDeg (4 * m) (2 * m) = 180 := by
      rw [ringAngleDeg, hcast]
      push_cast
      field_simp
      ring
    rw [ringVertex_z_zero (4 * m) radius (2 * m) (by rw [hang]; norm_num) (Or.inr hang)]

theorem ring_generator_flat_and_zeroed_witness :
    3 ≤ 4 ∧ 4 ∣ 4 ∧
    ((ringVertices 4 1).length = 4 ∧
      (ringVertices 4 1).Forall (fun p => p.2.1 = 0) ∧
      ((ringVertices 4 1)[4 / 4]?).map (fun p => p.1) = some 0 ∧
      ((ringVertices 4 1)[3 * 4 / 4]?).map (fun p => p.1) = some 0 ∧
      ((ringVertices 4 1)[0]?).map (fun p => p.2.2) = some 0 ∧
      ((ringVertices 4 1)[4 / 2]?).map (fun p => p.2.2) = some 0) :=
  ⟨by norm_num, dvd_refl 4,
    ring_generator_flat_and_zeroed 4 1 (by norm_num) (dvd_refl 4)⟩

/-- Structure `planetProperties` from main.h: revolution (translation) speed,
distance from the parent, spin (rotation) speed, and scale. -/
structure planetProperties where
  translation : ℝ
  distance : ℝ
  rotation : ℝ
  scale : ℝ

/-- Structure `planetInfo` from main.h: the textual facts shown by the info
overlay. -/
structure planetInfo where
  name : String
  distance : String
  radius : String
  moons : String
  rotationPeriod : String
  orbitalPeriod : String

/-- The `planetProp` table of main.cpp, in configuration order. -/
def planetProp : List planetProperties :=
  [⟨2, 2, 0.3, 0.04⟩, ⟨1.5, 3, 0.4, 0.1⟩, ⟨1, 4, 0.5, 0.1⟩, ⟨0.8, 5, 0.6, 0.09⟩,
    ⟨0.6, 6, 0.7, 0.3⟩, ⟨0.3, 7, 0.8, 0.4⟩, ⟨0.2, 8, 1.0, 0.35⟩, ⟨0.1, 9, 0.9, 0.35⟩]

/-- The `planetsData` table of main.cpp, in configuration order. -/
def planetsData : List planetInfo :=
  [⟨"Mercury", "0.4 astronomical units", "2,440 km", "0 moons", "59 Earth days", "88 Earth days"⟩,
    ⟨"Venus", "0.72 astronomical units", "6,051 km", "0 moons", "243 Earth days", "225 Earth days"⟩,
    ⟨"Earth", "1.0 astronomical unit", "6,378 km", "1 moon", "1 Earth day", "365 Earth days"⟩,
    ⟨"Mars", "1.5 astronomical units", "3,390 km", "2 moons", "23.9 Earth hours", "687 Earth days"⟩,
    ⟨"Jupiter", "5.2 astronomical units", "69,911 km", "95 moons", "10 Earth hours", "4,333 Earth days"⟩,
    ⟨"Saturn", "9.5 astronomical units", "58,232 km", "146 moons", "10.7 Earth hours", "10,756 Earth days"⟩,
    ⟨"Uranus", "19.8 astronomical units", "25,362 km", "27 moons", "17 Earth hours", "30,687 Earth days"⟩,
    ⟨"Neptune", "30 astronomical units", "24,622 km", "14 moons", "16 Earth hours", "60,190 Earth days"⟩]

/-- The `moonProp` constant of main.cpp. -/
def moonProp : planetProperties := ⟨6, 0.3, 3, 0.03⟩

/-- One body processed by the per-frame scene walk: its name, the anchor
passed to its transform, the resulting model matrix, its orbital
distance, and how many orbit-ring draws the walk issues for it. -/
structure BodyDraw where
  name : String
  anchor : Vec3
  model : Mat4
  dist : ℝ
  ringDraws : ℕ

/-- The sun transform of main.cpp (one clock read): translate to the sun
position (the origin) then rotate about y by time·0.1. -/
noncomputable def sunModelAt (t : ℝ) : Mat4 :=
  glmRotate (glmTranslate 1 (0, 0, 0)) (t * 0.1) (0, 1, 0)

/-- The planet loop of main.cpp: each planet's model matrix comes from
`planetCreator` anchored at the sun's translation column, with one
orbit-ring draw per planet; immediately after the planet whose
`planetsData` name is "Earth", the moon is processed with anchor equal
to that planet's just-computed translation column, plus its own ring.
The clock cursor is threaded through the `planetCreator` calls. -/
noncomputable def walkPlanets (clock : ℕ → ℝ) (sunPos : Vec3) :
    ℕ → List (planetInfo × planetProperties) → List BodyDraw × ℕ
  | k, [] => ([], k)
  | k, (info, prop) :: rest =>
    let pm := planetCreatorClocked clock k prop.translation prop.distance prop.rotation
      prop.scale sunPos
    let planetDraw : BodyDraw := ⟨info.name, sunPos, pm.1, prop.distance, 1⟩
    if info.name = "Earth" then
      let mm := planetCreatorClocked clock pm.2 moonProp.translation moonProp.distance
        moonProp.rotation moonProp.scale (transCol pm.1)
      let moonDraw : BodyDraw := ⟨"Moon", transCol pm.1, mm.1, moonProp.distance, 1⟩
      let restWalk := walkPlanets clock sunPos mm.2 rest
      (planetDraw :: moonDraw :: restWalk.1, restWalk.2)
    else
      let restWalk := walkPlanets clock sunPos pm.2 rest
      (planetDraw :: restWalk.1, restWalk.2)

/-- One frame of the scene walk of main.cpp: the sun first (sphere only,
no orbit ring, orbital distance 0, anchored at the world origin), then
the planet loop over the zipped configuration tables.  `k0` is the clock
cursor when the sun transform is computed. -/
noncomputable def frameWalk (clock : ℕ → ℝ) (k0 : ℕ) : List BodyDraw × ℕ :=
  let sunM := sunModelAt (clock k0)
  let sunDraw : BodyDraw := ⟨"Sun", (0, 0, 0), sunM, 0, 0⟩
  let rest := walkPlanets clock (transCol sunM) (k0 + 1) (planetsData.zip planetProp)
  (sunDraw :: rest.1, rest.2)

theorem walkPlanets_ringDraws_ok (clock : ℕ → ℝ) (sunPos : Vec3) (k : ℕ)
    (l : List (planetInfo × planetProperties))
    (hl : ∀ pr ∈ l, pr.2.distance ≠ 0) :
    ((walkPlanets clock sunPos k l).1).Forall
      (fun b => (b.dist = 0 → b.ringDraws = 0) ∧ (0 < b.dist → b.ringDraws = 1)) := by
  induction l generalizing k with
  | nil => simp [walkPlanets, List.Forall]
  | cons hd tl ih =>
    obtain ⟨info, prop⟩ := hd
    have hhd : prop.distance ≠ 0 := hl (info, prop) (List.mem_cons_self _ tl)
    have htl : ∀ pr ∈ tl, pr.2.distance ≠ 0 := fun pr hpr =>
      hl pr (List.mem_cons_of_mem (info, prop) hpr)
    have hmoon : moonProp.distance ≠ 0 := by norm_num [moonProp]
    rw [walkPlanets]
    by_cases hE : info.name = "Earth"
    · rw [if_pos hE]
      exact (List.forall_cons _ _ _).2 ⟨⟨fun h => absurd h hhd, fun _ => rfl⟩,
        (List.forall_cons _ _ _).2 ⟨⟨fun h => absurd h hmoon, fun _ => rfl⟩, ih _ htl⟩⟩
    · rw [if_neg hE]
      exact (List.forall_cons _ _ _).2 ⟨⟨fun h => absurd h hhd, fun _ => rfl⟩, ih _ htl⟩

/-- C5: in every frame walk, a body whose orbital distance is 0 (the
sun) receives no orbit-ring draw, and every body with positive orbital
distance (the eight planets and the moon) receives exactly one
orbit-ring draw. -/
theorem ring_draw_iff_positive_distance (clock : ℕ → ℝ) (k0 : ℕ) :
    ((frameWalk clock k0).1).Forall
      (fun b => (b.dist = 0 → b.ringDraws = 0) ∧ (0 < b.dist → b.ringDraws = 1)) := by
  refine (List.forall_cons _ _ _).2 ⟨⟨fun _ => rfl, fun h => absurd h (lt_irrefl 0)⟩,
    walkPlanets_ringDraws_ok _ _ _ _ ?_⟩
  intro pr hpr
  simp only [planetsData, planetProp, List.zip_cons_cons, List.zip_nil_left] at hpr
  fin_cases hpr <;> norm_num

theorem ring_draw_iff_positive_distance_witness :
    ((frameWalk (fun _ => 0) 0).1).Forall
      (fun b => (b.dist = 0 → b.ringDraws = 0) ∧ (0 < b.dist → b.ringDraws = 1)) :=
  ring_draw_iff_positive_distance (fun _ => 0) 0

/-- C8: in every frame, position 3 of the walk order (sun, Mercury,
Venus, Earth, ...) is the planet named "Earth", the body processed
immediately after it is the moon, and the moon's anchor equals the
translation column of Earth's model matrix computed in that same
frame. -/
theorem moon_anchor_is_earth_translation (clock : ℕ → ℝ) (k0 : ℕ) :
    ((frameWalk clock k0).1.map BodyDraw.name)[3]? = some "Earth" ∧
    ((frameWalk clock k0).1.map BodyDraw.name)[4]? = some "Moon" ∧
    ((frameWalk clock k0).1)[4]?.map BodyDraw.anchor =
      ((frameWalk clock k0).1)[3]?.map (fun b => transCol b.model) :=
  ⟨rfl, rfl, rfl⟩

/-- State of one lazily-initialized mesh cache cell (`sphereVAO`, one
`orbitVAO` entry, or `moonOrbitVAO`): the handle value (0 is the "not
yet created" sentinel), how many times the generation-and-upload path
ran, and how many draw calls were issued. -/
structure MeshCell where
  vao : ℕ
  gens : ℕ
  draws : ℕ

/-- One call of the draw path of `renderSphere` (and identically of
`renderOrbit`) acting on its cache cell: when the handle is the zero
sentinel, run generation and upload (the GL allocator hands out the
fresh name `newName`) and then draw; otherwise only reissue the draw
call on the cached handle. -/
def renderMeshStep (newName : ℕ) (c : MeshCell) : MeshCell :=
  if c.vao = 0 then ⟨newName, c.gens + 1, c.draws + 1⟩
  else ⟨c.vao, c.gens, c.draws + 1⟩

/-- Iterated calls: n successive calls of the draw path on an initially-empty cell;
`names i` is the GL name the allocator would return on call i. -/
def runMesh (names : ℕ → ℕ) : ℕ → MeshCell
  | 0 => ⟨0, 0, 0⟩
  | n + 1 => renderMeshStep (names n) (runMesh names n)

/-- C6: for every mesh cache cell (the shared sphere handle and each
per-radius ring handle follow this same sentinel discipline) and every
GL allocator returning nonzero names, after n ≥ 1 calls the
generation-and-upload path has run exactly once — on the first call,
when the handle still held the zero sentinel — the handle is exactly the
name allocated on that first call (handle identity), and each of the n
calls issued one draw. -/
theorem mesh_cache_runs_generation_once (names : ℕ → ℕ)
    (hnz : ∀ i, names i ≠ 0) (n : ℕ) (hn : 1 ≤ n) :
    (runMesh names n).gens = 1 ∧ (runMesh names n).vao = names 0 ∧
      (runMesh names n).draws = n := by
  induction n with
  | zero => exact absurd hn (by norm_num)
  | succ m ih =>
    by_cases hm : m = 0
    · subst hm
      refine ⟨?_, ?_, ?_⟩ <;> simp [runMesh, renderMeshStep]
    · obtain ⟨hg, hv, hd⟩ := ih (by omega)
      have hvz : (runMesh names m).vao ≠ 0 := by rw [hv]; exact hnz 0
      refine ⟨?_, ?_, ?_⟩ <;> simp [runMesh, renderMeshStep, hvz, hg, hv, hd, hnz 0]

theorem mesh_cache_runs_generation_once_witness :
    (∀ i : ℕ, (fun j : ℕ => j + 1) i ≠ 0) ∧ 1 ≤ 2 ∧
    ((runMesh (fun j => j + 1) 2).gens = 1 ∧
      (runMesh (fun j => j + 1) 2).vao = (fun j : ℕ => j + 1) 0 ∧
      (runMesh (fun j => j + 1) 2).draws = 2) :=
  ⟨fun i => Nat.succ_ne_zero i, by norm_num,
    mesh_cache_runs_generation_once (fun j => j + 1)
      (fun i => Nat.succ_ne_zero i) 2 (by norm_num)⟩

/-- The camera-mode keys checked by `processInput`, in the order the
source checks them: SPACE, the planet keys 1..8 (each key together with
its numpad twin), and the 0 key; `true` means pressed during the call. -/
structure CamKeys where
  space : Bool
  key1 : Bool
  key2 : Bool
  key3 : Bool
  key4 : Bool
  key5 : Bool
  key6 : Bool
  key7 : Bool
  key8 : Bool
  key0 : Bool

/-- The camera-mode assignments of `processInput`: each pressed key
overwrites `cameraMode`, in the fixed source order (SPACE sets 8, keys
1..8 set planet modes 0..7, key 0 sets 9). -/
def processInputMode (mode : ℕ) (ks : CamKeys) : ℕ :=
  let m0 := if ks.space then 8 else mode
  let m1 := if ks.key1 then 0 else m0
  let m2 := if ks.key2 then 1 else m1
  let m3 := if ks.key3 then 2 else m2
  let m4 := if ks.key4 then 3 else m3
  let m5 := if ks.key5 then 4 else m4
  let m6 := if ks.key6 then 5 else m5
  let m7 := if ks.key7 then 6 else m6
  let m8 := if ks.key8 then 7 else m7
  if ks.key0 then 9 else m8

/-- Initial value of `cameraMode`: 8 (free camera mode). -/
def initialCameraMode : ℕ := 8

/-- The per-frame camera branch of main.cpp: mode 9 selects the top-view
pose, any mode other than 9 and 8 selects the planet-focus pose and the
planet-info overlay for index `mode`, and mode 8 selects the free
camera (no index used in the latter two... the index is used only in the
middle branch). -/
def focusIndexUsed (mode : ℕ) : Option ℕ :=
  if mode = 9 then none
  else if mode ≠ 8 then some mode
  else none

theorem processInputMode_le (mode : ℕ) (ks : CamKeys) (h : mode ≤ 9) :
    processInputMode mode ks ≤ 9 := by
  have hite : ∀ (b : Bool) (x y : ℕ), x ≤ 9 → y ≤ 9 → (if b = true then x else y) ≤ 9 := by
    intro b x y hx hy
    cases b
    · simpa using hy
    · simpa using hx
  simp only [processInputMode]
  exact hite _ _ _ (by norm_num) (hite _ _ _ (by norm_num) (hite _ _ _ (by norm_num)
    (hite _ _ _ (by norm_num) (hite _ _ _ (by norm_num) (hite _ _ _ (by norm_num)
    (hite _ _ _ (by norm_num) (hite _ _ _ (by norm_num) (hite _ _ _ (by norm_num)
    (hite _ _ _ (by norm_num) h)))))))))

theorem camera_mode_foldl_le (keys : List CamKeys) :
    keys.foldl processInputMode initialCameraMode ≤ 9 := by
  suffices h : ∀ m, m ≤ 9 → keys.foldl processInputMode m ≤ 9 from h 8 (by norm_num)
  induction keys with
  | nil => intro m hm; simpa using hm
  | cons hd tl ih =>
    intro m hm
    exact ih _ (processInputMode_le m hd hm)

/-- C10: every camera mode reachable through the input handler from the
initial mode 8 lies in {0,...,9}, and whenever the per-frame branch
selects the planet-focus pose and planet info (mode neither 9 nor 8),
the mode is a valid index into the 8-element planet tables. -/
theorem camera_mode_in_bounds (keys : List CamKeys) :
    keys.foldl processInputMode initialCameraMode ≤ 9 ∧
    (∀ i, focusIndexUsed (keys.foldl processInputMode initialCameraMode) = some i →
      i < planetsData.length) := by
  refine ⟨camera_mode_foldl_le keys, ?_⟩
  intro i hi
  have h9 := camera_mode_foldl_le keys
  set m := keys.foldl processInputMode initialCameraMode with hm
  unfold focusIndexUsed at hi
  by_cases hm9 : m = 9
  · rw [if_pos hm9] at hi
    exact absurd hi (by simp)
  · rw [if_neg hm9] at hi
    by_cases hm8 : m = 8
    · simp [hm8] at hi
    · rw [if_pos hm8] at hi
      have him : m = i := Option.some_inj.1 hi
      have hlen : planetsData.length = 8 := rfl
      rw [hlen]
      omega

theorem camera_mode_in_bounds_witness :
    (List.foldl processInputMode initialCameraMode
        [⟨false, false, false, true, false, false, false, false, false, false⟩] ≤ 9) ∧
    (∀ i, focusIndexUsed (List.foldl processInputMode initialCameraMode
        [⟨false, false, false, true, false, false, false, false, false, false⟩]) = some i →
      i < planetsData.length) :=
  camera_mode_in_bounds
    [⟨false, false, false, true, false, false, false, false, false, false⟩]

end SolarSystem
